import Mathlib

/-!
Shallow embedding of the decision-and-lifecycle core of `intraday_bot.py`
(sentiment scoring, signal gate, risk sizing, position ledger, daily report),
with theorems settling the specification claims about it.

Modelling conventions:
* Python floats are modelled as `ℚ`; `int(x)` truncation toward zero is `pyInt`.
* Python dicts (`active_positions`, `trade_history`) are insertion-ordered
  association lists with pairwise-distinct keys; dict assignment is
  `dictInsert` (replace in place, else append), `dict.pop` is `dictRemove`.
* External collaborators (talib ATR, yfinance prices, the two text scorers)
  are inputs: an `Option` value is `none` exactly when the Python call fails
  or returns no data, which the source catches with `try/except`.
-/

namespace IntradayBot

/-- CONFIG constant `CAPITAL = 100000`. -/
def CAPITAL : ℚ := 100000

/-- CONFIG constant `RISK_PER_TRADE = 0.01`. -/
def RISK_PER_TRADE : ℚ := 1 / 100

/-- CONFIG constant `POSITIVE_WORDS`. -/
def POSITIVE_WORDS : List String :=
  ["rally", "highs", "bullish", "gains", "optimism", "rate cut"]

/-- CONFIG constant `NEGATIVE_WORDS`. -/
def NEGATIVE_WORDS : List String :=
  ["drop", "crash", "bearish", "losses", "concerns", "sell-off"]

/-- Python `int(x)` applied to a float: truncation toward zero. -/
def pyInt (x : ℚ) : ℤ := if 0 ≤ x then ⌊x⌋ else -⌊-x⌋

/-- The signal strings `"BUY"` / `"SELL"` used throughout the bot. -/
inductive Sig where
  | BUY
  | SELL
deriving DecidableEq, Repr

/-- The sentiment strings `"Bullish"` / `"Bearish"` / `"Neutral"`. -/
inductive Sentiment where
  | Bullish
  | Bearish
  | Neutral
deriving DecidableEq, Repr

/-- Value stored in `active_positions[symbol]`:
`{"signal":signal,"qty":qty,"entry_price":entry,"stop_loss":sl}`. -/
structure Position where
  signal : Sig
  qty : ℤ
  entry_price : ℚ
  stop_loss : ℚ
deriving DecidableEq, Repr

/-- Row appended to `trade_history[date]` by `exit_trade`. `exit_time` is the
wall-clock timestamp string, modelled as an opaque `Nat`. -/
structure ClosedTrade where
  symbol : String
  signal : Sig
  qty : ℤ
  entry_price : ℚ
  exit_price : ℚ
  pnl : ℚ
  exit_time : Nat
deriving DecidableEq, Repr

/-- First-match lookup in an insertion-ordered association list (Python `d[k]`
/ `k in d`; with pairwise-distinct keys the first match is the only one). -/
def lookup? {κ α : Type} [DecidableEq κ] (k : κ) : List (κ × α) → Option α
  | [] => none
  | p :: rest => if p.1 = k then some p.2 else lookup? k rest

/-- Python dict assignment `d[k] = v`: replace the value in place if the key
is present (keeping its position), otherwise append the pair at the end. -/
def dictInsert {κ α : Type} [DecidableEq κ] (k : κ) (v : α) :
    List (κ × α) → List (κ × α)
  | [] => [(k, v)]
  | p :: rest => if p.1 = k then (k, v) :: rest else p :: dictInsert k v rest

/-- Python `d.pop(k, None)`'s removal effect: drop the entry with key `k`. -/
def dictRemove {κ α : Type} [DecidableEq κ] (k : κ) (d : List (κ × α)) :
    List (κ × α) :=
  d.filter (fun p => decide (p.1 ≠ k))

/-- The key view of a dict (`d.keys()`, in insertion order). -/
def keys {κ α : Type} (d : List (κ × α)) : List κ := d.map Prod.fst

/-- A real Python dict never holds two entries with the same key. -/
def NodupKeys {κ α : Type} (d : List (κ × α)) : Prop := (keys d).Nodup

/-- Embeds `trade_history.setdefault(date, []).append(t)`: append `t` to the bucket
of `day`, creating the bucket at the end of the dict if absent. -/
def historyAppend (day : Nat) (t : ClosedTrade) :
    List (Nat × List ClosedTrade) → List (Nat × List ClosedTrade)
  | [] => [(day, [t])]
  | p :: rest =>
      if p.1 = day then (p.1, p.2 ++ [t]) :: rest
      else p :: historyAppend day t rest

/-- The two module-level mutable dicts `active_positions` and `trade_history`,
made explicit state. -/
structure BotState where
  active_positions : List (String × Position)
  trade_history : List (Nat × List ClosedTrade)
deriving DecidableEq, Repr

/-! ## Sentiment analysis (`analyze_sentiment`, `fetch_and_analyze_sentiment`) -/

/-- Non-overlapping left-to-right substring count, as Python `str.count`:
at a match, count it and skip past it (`skip` counts characters still to be
skipped after consuming the head of a match). -/
def countOccsAux (w : List Char) (skip : Nat) : List Char → Nat
  | [] => 0
  | c :: rest =>
      match skip with
      | k + 1 => countOccsAux w k rest
      | 0 =>
          if w.isPrefixOf (c :: rest) then
            1 + countOccsAux w (w.length - 1) rest
          else countOccsAux w 0 rest

/-- Python `text.count(w)` for non-empty `w` (every word in the fixed
vocabularies is non-empty). -/
def countOccs (w text : String) : Nat := countOccsAux w.data 0 text.data

/-- Python's blank test `not text.strip()`: true iff every character is
whitespace (in particular for the empty string). -/
def isBlank (text : String) : Bool := text.data.all Char.isWhitespace

/-- Python `text.lower()`: lower-case every character. -/
def pyLower (text : String) : String := ⟨text.data.map Char.toLower⟩

/-- Embeds `analyze_sentiment(text)`. The two external scorers (TextBlob polarity and
VADER compound) are an input: `some (tb, vd)` when the `try` block succeeds
with those two values, `none` when it raises and the keyword-count fallback
runs. Blank text returns `0.0` before either path. -/
def analyze_sentiment (text : String) (scorers : Option (ℚ × ℚ)) : ℚ :=
  if isBlank text then 0
  else
    match scorers with
    | some s => (s.1 + s.2) / 2
    | none =>
        let lower := pyLower text
        let pos : ℕ := (POSITIVE_WORDS.map (fun w => countOccs w lower)).sum
        let neg : ℕ := (NEGATIVE_WORDS.map (fun w => countOccs w lower)).sum
        ((pos : ℚ) - (neg : ℚ)) / ((pos : ℚ) + (neg : ℚ) + 1)

/-- The threshold expression of `fetch_and_analyze_sentiment`:
`"Bullish" if avg>0.2 else "Bearish" if avg<-0.2 else "Neutral"`. -/
def sentLabel (avg : ℚ) : Sentiment :=
  if avg > 1 / 5 then Sentiment.Bullish
  else if avg < -(1 / 5) then Sentiment.Bearish
  else Sentiment.Neutral

/-- Per-draw mentioned-instrument scan:
`[s for s,n in ALL_STOCKS.items() if n in text.lower() or s.split('.')[0].lower() in text.lower()]`.
Substring membership is `countOccs … ≠ 0`. -/
def mentionedIn (stocks : List (String × String)) (text : String) : List String :=
  (stocks.filter (fun p =>
      decide (countOccs p.2 (pyLower text) ≠ 0) ||
      decide (countOccs (pyLower ((p.1.splitOn ".").headD "")) (pyLower text) ≠ 0))).map
    Prod.fst

/-- Embeds `fetch_and_analyze_sentiment()`. Each of the 3 draws supplies the joined
news text for that draw and the outcome of the scorer `try` block on it; the
instrument universe `ALL_STOCKS` is the `stocks` parameter. Python's
`list(set(mentioned))` is modelled as de-duplication keeping first
occurrences (the claims do not depend on `set` ordering). -/
def fetch_and_analyze_sentiment (stocks : List (String × String))
    (draws : List (String × Option (ℚ × ℚ))) : Sentiment × ℚ × List String :=
  let scores := draws.map (fun d => analyze_sentiment d.1 d.2)
  let mentioned := draws.foldl (fun acc d => acc ++ mentionedIn stocks d.1) []
  let avg := scores.sum / (scores.length : ℚ)
  let uniq := if mentioned.dedup = [] then (keys stocks).take 5
              else mentioned.dedup
  (sentLabel avg, avg, uniq)

/-! ## ATR, sizing and the ledger (`calculate_atr`, `place_trade`,
`exit_trade`, `monitor_positions`) -/

/-- Abstract view of the OHLCV dataframe handed to `place_trade`: the external
talib ATR value (with its `try/except` collapsed to `none` on failure) and the
last close `df['Close'].iloc[-1]`. -/
structure PriceFrame where
  atr14 : Option ℚ
  lastClose : ℚ
deriving DecidableEq, Repr

/-- Embeds `calculate_atr(df)`: `talib.ATR(...).dropna().iloc[-1]`, `None` when the
external call fails or yields no data. -/
def calculate_atr (df : PriceFrame) : Option ℚ := df.atr14

/-- The order-producing prefix of `place_trade`, lines 201–208: the ATR guard
`if not atr or atr==0`, the quantity computation and its `< 1` guard, the
sentiment veto, and the entry/stop computation. `none` means `place_trade`
returned without touching the ledger. -/
def sized_order (signal : Sig) (sentiment : Sentiment) (df : PriceFrame) :
    Option Position :=
  match calculate_atr df with
  | none => none
  | some atr =>
      if atr = 0 then none
      else
        let qty := pyInt (CAPITAL * RISK_PER_TRADE / (atr * (3 / 2)))
        if qty < 1 then none
        else if (sentiment = Sentiment.Bearish ∧ signal = Sig.BUY) ∨
                (sentiment = Sentiment.Bullish ∧ signal = Sig.SELL) then none
        else
          let entry := df.lastClose
          let sl := if signal = Sig.BUY then entry - atr * (3 / 2)
                    else entry + atr * (3 / 2)
          some ⟨signal, qty, entry, sl⟩

/-- Embeds `place_trade(symbol, signal, sentiment, df)`: on success store the new
position under `symbol` (`active_positions[symbol] = {...}`), else no-op. -/
def place_trade (symbol : String) (signal : Sig) (sentiment : Sentiment)
    (df : PriceFrame) (s : BotState) : BotState :=
  match sized_order signal sentiment df with
  | none => s
  | some pos =>
      { s with active_positions := dictInsert symbol pos s.active_positions }

/-- Embeds `exit_trade(symbol, price)`: pop the position (no-op when absent), compute
the realized pnl by direction, and append the closed trade to today's history
bucket. `today`/`now` stand for `datetime.now().date()` / the exit-time
string. -/
def exit_trade (symbol : String) (price : ℚ) (today now : Nat)
    (s : BotState) : BotState :=
  match lookup? symbol s.active_positions with
  | none => s
  | some pos =>
      let pnl := if pos.signal = Sig.BUY then (pos.qty : ℚ) * (price - pos.entry_price)
                 else (pos.qty : ℚ) * (pos.entry_price - price)
      { active_positions := dictRemove symbol s.active_positions,
        trade_history :=
          historyAppend today
            ⟨symbol, pos.signal, pos.qty, pos.entry_price, price, pnl, now⟩
            s.trade_history }

/-- One instrument's step of `monitor_positions` (the spec's
`PollAndMaybeClose`): `price = none` models `get_current_price` failing
(`continue`); with a price, close on a stop-loss breach in the position's
direction, else leave the ledger alone. An instrument with no open position
is a no-op (`monitor_positions` never reaches it and `exit_trade`'s `pop`
would default to `None`). -/
def poll_position (symbol : String) (price : Option ℚ) (today now : Nat)
    (s : BotState) : BotState :=
  match price with
  | none => s
  | some p =>
      match lookup? symbol s.active_positions with
      | none => s
      | some pos =>
          if pos.signal = Sig.BUY ∧ p ≤ pos.stop_loss then
            exit_trade symbol p today now s
          else if pos.signal = Sig.SELL ∧ pos.stop_loss ≤ p then
            exit_trade symbol p today now s
          else s

/-! ## Daily report (`save_daily_report`) and signal gate (`daily_trading`) -/

/-- The `all_trades` accumulation of `save_daily_report`:
`for _,t in trade_history.items(): all_trades.extend(t)`. -/
def report_rows (h : List (Nat × List ClosedTrade)) : List ClosedTrade :=
  h.foldl (fun acc p => acc ++ p.2) []

/-- Embeds `save_daily_report()`: no file is written when `trade_history` is empty or
flattens to no rows; otherwise the day's report file is (over)written —
`open(filename,'w')` — with exactly the flattened rows. The filesystem is a
map from report date to file content (the CSV rows); the bot's dicts are
returned unchanged alongside it. -/
def save_daily_report (s : BotState) (today : Nat)
    (fs : Nat → Option (List ClosedTrade)) :
    BotState × (Nat → Option (List ClosedTrade)) :=
  if s.trade_history = [] then (s, fs)
  else
    let all_trades := report_rows s.trade_history
    if all_trades = [] then (s, fs)
    else (s, fun d => if d = today then some all_trades else fs d)

/-- The per-instrument signal decision of `daily_trading`: `continue` when the
backtest returned no pnl, else
`"BUY" if pnl>0 and sentiment=="Bullish" else "SELL" if pnl<0 and sentiment=="Bearish" else None`. -/
def daily_signal (pnl : Option ℚ) (sentiment : Sentiment) : Option Sig :=
  match pnl with
  | none => none
  | some v =>
      if v > 0 ∧ sentiment = Sentiment.Bullish then some Sig.BUY
      else if v < 0 ∧ sentiment = Sentiment.Bearish then some Sig.SELL
      else none

/-- Total number of closed-trade rows accumulated in the history. -/
def rowCount (h : List (Nat × List ClosedTrade)) : Nat :=
  (report_rows h).length

/-- One `Ledger.Open` attempt of the trading cycle: the argument bundle of a
`place_trade` call. -/
structure OpenCall where
  symbol : String
  signal : Sig
  sentiment : Sentiment
  df : PriceFrame
deriving DecidableEq, Repr

/-- A whole sequence of `Open` calls applied to the ledger. -/
def applyOpens (calls : List OpenCall) (s : BotState) : BotState :=
  calls.foldl (fun st c => place_trade c.symbol c.signal c.sentiment c.df st) s

/-! ## Concrete test data -/

/-- Frame with ATR 4 and last close 200 (so the risk sizer yields
`qty = floor(1000/6) = 166`, stop `194` for a long). -/
def dfA : PriceFrame := ⟨some 4, 200⟩

/-- Frame with no ATR available. -/
def dfNone : PriceFrame := ⟨none, 100⟩

/-- Frame for the spec's round-trip scenario: ATR 2, last close 100. -/
def dfRT : PriceFrame := ⟨some 2, 100⟩

/-- A position already open for `"ABC"` before a second `Open` call. -/
def posOld : Position := ⟨Sig.BUY, 5, 100, 97⟩

/-- Ledger holding only the pre-existing `"ABC"` position. -/
def stOld : BotState := ⟨[("ABC", posOld)], []⟩

/-- The position the risk sizer produces from `dfA` for a long. -/
def ordNew : Position := ⟨Sig.BUY, 166, 200, 194⟩

/-- The round-trip position from `dfRT`: `qty = floor(1000/3) = 333`,
stop `100 - 3 = 97`. -/
def posRT : Position := ⟨Sig.BUY, 333, 100, 97⟩

/-- Ledger holding only the round-trip `"XYZ"` position. -/
def stRT : BotState := ⟨[("XYZ", posRT)], []⟩

/-- The `dfA`-sized long held under `"PQR"` for the deep-breach scenario. -/
def stP : BotState := ⟨[("PQR", ordNew)], []⟩

/-- A sample closed trade. -/
def tX : ClosedTrade := ⟨"ABC", Sig.BUY, 5, 100, 96, -20, 0⟩

/-- A bot state with one day's history and no open positions. -/
def stHist : BotState := ⟨[], [(0, [tX])]⟩

/-- An empty filesystem. -/
def fsN : Nat → Option (List ClosedTrade) := fun _ => none

/-! ## Dictionary lemmas -/

theorem lookup_dictInsert_self {κ α : Type} [DecidableEq κ] (k : κ) (v : α)
    (d : List (κ × α)) : lookup? k (dictInsert k v d) = some v := by
  induction d with
  | nil => simp [dictInsert, lookup?]
  | cons p rest ih =>
      by_cases h : p.1 = k
      · simp [dictInsert, h, lookup?]
      · simp [dictInsert, h, lookup?, ih]

theorem mem_keys_dictInsert {κ α : Type} [DecidableEq κ] (a k : κ) (v : α)
    (d : List (κ × α)) : a ∈ keys (dictInsert k v d) ↔ a = k ∨ a ∈ keys d := by
  induction d with
  | nil => simp [dictInsert, keys]
  | cons p rest ih =>
      by_cases h : p.1 = k
      · simp [dictInsert, h, keys]
      · simp only [dictInsert, if_neg h, keys, List.map_cons, List.mem_cons]
        rw [show (dictInsert k v rest).map Prod.fst = keys (dictInsert k v rest) from rfl,
          show rest.map Prod.fst = keys rest from rfl] at *
        constructor
        · rintro (rfl | hm)
          · exact Or.inr (Or.inl rfl)
          · rcases (ih.mp hm) with rfl | hm2
            · exact Or.inl rfl
            · exact Or.inr (Or.inr hm2)
        · rintro (rfl | rfl | hm)
          · exact Or.inr (ih.mpr (Or.inl rfl))
          · exact Or.inl rfl
          · exact Or.inr (ih.mpr (Or.inr hm))

theorem keys_dictInsert_of_mem {κ α : Type} [DecidableEq κ] (k : κ) (v : α)
    (d : List (κ × α)) (hmem : k ∈ keys d) :
    keys (dictInsert k v d) = keys d := by
  induction d with
  | nil => simp [keys] at hmem
  | cons p rest ih =>
      by_cases h : p.1 = k
      · simp [dictInsert, h, keys]
      · have hmem2 : k ∈ keys rest := by
          rcases List.mem_cons.mp hmem with h1 | h1
          · exact absurd h1.symm h
          · exact h1
        simp only [dictInsert, if_neg h, keys, List.map_cons]
        rw [show (dictInsert k v rest).map Prod.fst = keys (dictInsert k v rest) from rfl,
          ih hmem2]
        rfl

theorem nodupKeys_dictInsert {κ α : Type} [DecidableEq κ] (k : κ) (v : α)
    (d : List (κ × α)) (hd : NodupKeys d) : NodupKeys (dictInsert k v d) := by
  induction d with
  | nil => simp [dictInsert, NodupKeys, keys]
  | cons p rest ih =>
      rw [NodupKeys, keys, List.map_cons, List.nodup_cons] at hd
      by_cases h : p.1 = k
      · rw [NodupKeys, dictInsert, if_pos h, keys, List.map_cons, List.nodup_cons]
        exact ⟨by rw [← h]; exact hd.1, hd.2⟩
      · rw [NodupKeys, dictInsert, if_neg h, keys, List.map_cons, List.nodup_cons]
        refine ⟨fun hm => ?_, ih hd.2⟩
        rcases (mem_keys_dictInsert p.1 k v rest).mp hm with rfl | hm2
        · exact h rfl
        · exact hd.1 hm2

theorem lookup_dictRemove_self {κ α : Type} [DecidableEq κ] (k : κ)
    (d : List (κ × α)) : lookup? k (dictRemove k d) = none := by
  induction d with
  | nil => simp [dictRemove, lookup?]
  | cons p rest ih =>
      by_cases h : p.1 = k
      · simpa [dictRemove, h] using ih
      · simpa [dictRemove, h, lookup?] using ih

/-! ## Report-row lemmas -/

theorem report_rows_foldl (h : List (Nat × List ClosedTrade)) :
    ∀ acc : List ClosedTrade,
      h.foldl (fun a p => a ++ p.2) acc = acc ++ (h.map Prod.snd).flatten := by
  induction h with
  | nil => intro acc; simp
  | cons p rest ih =>
      intro acc
      simp only [List.foldl_cons, List.map_cons, List.flatten_cons]
      rw [ih, List.append_assoc]

theorem report_rows_eq_flatten (h : List (Nat × List ClosedTrade)) :
    report_rows h = (h.map Prod.snd).flatten := by
  simpa using report_rows_foldl h []

theorem rowCount_historyAppend (day : Nat) (t : ClosedTrade)
    (h : List (Nat × List ClosedTrade)) :
    rowCount (historyAppend day t h) = rowCount h + 1 := by
  induction h with
  | nil => simp [historyAppend, rowCount, report_rows]
  | cons p rest ih =>
      by_cases hd : p.1 = day
      · simp only [historyAppend, if_pos hd, rowCount, report_rows_eq_flatten,
          List.map_cons, List.flatten_cons, List.length_append, List.length_cons,
          List.length_nil]
        omega
      · have ih2 : ((historyAppend day t rest).map Prod.snd).flatten.length =
            (rest.map Prod.snd).flatten.length + 1 := by
          simpa [rowCount, report_rows_eq_flatten] using ih
        simp only [historyAppend, if_neg hd, rowCount, report_rows_eq_flatten,
          List.map_cons, List.flatten_cons, List.length_append]
        omega

/-! ## Numeric bound lemmas -/

theorem fallback_ratio_bounds (a b : ℕ) :
    -1 < ((a : ℚ) - (b : ℚ)) / ((a : ℚ) + (b : ℚ) + 1) ∧
      ((a : ℚ) - (b : ℚ)) / ((a : ℚ) + (b : ℚ) + 1) < 1 := by
  have ha : (0 : ℚ) ≤ (a : ℚ) := Nat.cast_nonneg a
  have hb : (0 : ℚ) ≤ (b : ℚ) := Nat.cast_nonneg b
  have hd : (0 : ℚ) < (a : ℚ) + (b : ℚ) + 1 := by linarith
  constructor
  · rw [lt_div_iff₀ hd]
    linarith
  · rw [div_lt_one hd]
    linarith

theorem sum_bounds (l : List ℚ) (h : ∀ x ∈ l, -1 ≤ x ∧ x ≤ 1) :
    -(l.length : ℚ) ≤ l.sum ∧ l.sum ≤ (l.length : ℚ) := by
  induction l with
  | nil => simp
  | cons x rest ih =>
      have hx := h x (List.mem_cons_self x rest)
      have hrest := ih (fun y hy => h y (List.mem_cons_of_mem x hy))
      simp only [List.sum_cons, List.length_cons]
      push_cast
      constructor <;> linarith [hrest.1, hrest.2, hx.1, hx.2]

/-! ## Risk-sizer lemmas -/

theorem sized_order_eq_ite (sig : Sig) (sent : Sentiment) (atr c : ℚ) :
    sized_order sig sent ⟨some atr, c⟩ =
      (if atr = 0 then none
       else if pyInt (CAPITAL * RISK_PER_TRADE / (atr * (3 / 2))) < 1 then none
       else if (sent = Sentiment.Bearish ∧ sig = Sig.BUY) ∨
               (sent = Sentiment.Bullish ∧ sig = Sig.SELL) then none
       else some ⟨sig, pyInt (CAPITAL * RISK_PER_TRADE / (atr * (3 / 2))), c,
                  if sig = Sig.BUY then c - atr * (3 / 2)
                  else c + atr * (3 / 2)⟩) := rfl

theorem capital_risk_pos : (0 : ℚ) < CAPITAL * RISK_PER_TRADE := by
  norm_num [CAPITAL, RISK_PER_TRADE]

theorem pyInt_eq_floor_of_nonneg (x : ℚ) (h : 0 ≤ x) : pyInt x = ⌊x⌋ := by
  rw [pyInt, if_pos h]

theorem pyInt_nonpos_of_neg (x : ℚ) (h : x < 0) : pyInt x ≤ 0 := by
  rw [pyInt, if_neg (not_le.mpr h)]
  exact neg_nonpos.mpr (Int.floor_nonneg.mpr (by linarith))

theorem pyInt_qty_lt_one_of_neg (atr : ℚ) (h : atr < 0) :
    pyInt (CAPITAL * RISK_PER_TRADE / (atr * (3 / 2))) < 1 := by
  have hden : atr * (3 / 2) < 0 := mul_neg_of_neg_of_pos h (by norm_num)
  have hx : CAPITAL * RISK_PER_TRADE / (atr * (3 / 2)) < 0 :=
    div_neg_of_pos_of_neg capital_risk_pos hden
  have := pyInt_nonpos_of_neg _ hx
  omega

/-! ## Claim theorems -/

/-- C2: the Risk Sizer (`place_trade`'s sizing prefix) produces an order only
when the ATR is available and strictly positive and the floored quantity is at
least 1, and then the order's quantity is exactly
`floor(CAPITAL * RISK_PER_TRADE / (atr * 1.5))`; with no ATR, a non-positive
ATR, or a computed quantity below 1, no order is produced. -/
theorem c2_risk_sizer :
    (∀ sig sent df o, sized_order sig sent df = some o →
        ∃ atr, calculate_atr df = some atr ∧ 0 < atr ∧
          o.qty = ⌊CAPITAL * RISK_PER_TRADE / (atr * (3 / 2))⌋ ∧ 1 ≤ o.qty) ∧
    (∀ sig sent df, calculate_atr df = none → sized_order sig sent df = none) ∧
    (∀ sig sent df atr, calculate_atr df = some atr → atr ≤ 0 →
        sized_order sig sent df = none) ∧
    (∀ sig sent df atr, calculate_atr df = some atr →
        pyInt (CAPITAL * RISK_PER_TRADE / (atr * (3 / 2))) < 1 →
        sized_order sig sent df = none) := by
  refine ⟨?_, ?_, ?_, ?_⟩
  · rintro sig sent ⟨a, c⟩ o h
    cases a with
    | none => exact absurd h (by simp [sized_order, calculate_atr])
    | some atr =>
        refine ⟨atr, rfl, ?_⟩
        rw [sized_order_eq_ite] at h
        split_ifs at h with h0 hq hv hsig
        all_goals
          have ho := Option.some.inj h
          have hq1 : 1 ≤ pyInt (CAPITAL * RISK_PER_TRADE / (atr * (3 / 2))) :=
            not_lt.mp hq
          have hpos : 0 < atr := by
            rcases lt_trichotomy atr 0 with hlt | heq | hgt
            · exact absurd (pyInt_qty_lt_one_of_neg atr hlt) (by omega)
            · exact absurd heq h0
            · exact hgt
          have hx : (0 : ℚ) ≤ CAPITAL * RISK_PER_TRADE / (atr * (3 / 2)) :=
            le_of_lt (div_pos capital_risk_pos (by positivity))
          exact ⟨hpos, by rw [← ho]; exact pyInt_eq_floor_of_nonneg _ hx,
            by rw [← ho]; exact hq1⟩
  · rintro sig sent ⟨a, c⟩ h
    cases a with
    | none => rfl
    | some atr => simp [calculate_atr] at h
  · rintro sig sent ⟨a, c⟩ atr hatr hle
    simp only [calculate_atr] at hatr
    subst hatr
    rw [sized_order_eq_ite]
    rcases lt_or_eq_of_le hle with hlt | heq
    · rw [if_neg (ne_of_lt hlt), if_pos (pyInt_qty_lt_one_of_neg atr hlt)]
    · rw [if_pos heq]
  · rintro sig sent ⟨a, c⟩ atr hatr hq
    simp only [calculate_atr] at hatr
    subst hatr
    rw [sized_order_eq_ite]
    by_cases h0 : atr = 0
    · rw [if_pos h0]
    · rw [if_neg h0, if_pos hq]

/-- C2 witness: with no ATR available, no order is produced. -/
theorem c2_risk_sizer_witness : sized_order Sig.BUY Sentiment.Neutral dfNone = none :=
  c2_risk_sizer.2.1 Sig.BUY Sentiment.Neutral dfNone rfl

/-- C3: every order the Risk Sizer produces has `entryPrice` equal to the
series' most recent close and `stopLoss = entryPrice − 1.5·atr` for a long
(`BUY`), `entryPrice + 1.5·atr` for a short (`SELL`); and the round trip: the
long opened from entry 100 with ATR 2 has stop 97, and polling price 96
closes it with `realizedPnl = qty × (96 − 100) < 0`. -/
theorem c3_entry_stop :
    (∀ sig sent df o, sized_order sig sent df = some o →
        o.entry_price = df.lastClose ∧
        ∃ atr, calculate_atr df = some atr ∧
          ((sig = Sig.BUY → o.stop_loss = o.entry_price - atr * (3 / 2)) ∧
           (sig = Sig.SELL → o.stop_loss = o.entry_price + atr * (3 / 2)))) ∧
    (sized_order Sig.BUY Sentiment.Neutral dfRT = some posRT ∧
      posRT.stop_loss = 100 - 2 * (3 / 2) ∧ posRT.stop_loss = 97 ∧
      (poll_position "XYZ" (some 96) 0 0 stRT).trade_history =
        [(0, [⟨"XYZ", Sig.BUY, 333, 100, 96, (333 : ℚ) * (96 - 100), 0⟩])] ∧
      (333 : ℚ) * (96 - 100) < 0) := by
  constructor
  · rintro sig sent ⟨a, c⟩ o h
    cases a with
    | none => exact absurd h (by simp [sized_order, calculate_atr])
    | some atr =>
        rw [sized_order_eq_ite] at h
        split_ifs at h with h0 hq hv hsig
        · have ho := Option.some.inj h
          subst ho
          exact ⟨rfl, atr, rfl, fun _ => rfl,
            fun hb => absurd (hsig.symm.trans hb) (by simp)⟩
        · have ho := Option.some.inj h
          subst ho
          exact ⟨rfl, atr, rfl, fun hb => absurd hb hsig, fun _ => rfl⟩
  · refine ⟨?_, by norm_num [posRT], by norm_num [posRT], ?_, by norm_num⟩
    · rw [dfRT, sized_order_eq_ite]
      rw [if_neg (by norm_num), if_neg ?hq, if_neg (by simp)]
      case hq =>
        rw [pyInt_eq_floor_of_nonneg _ (by norm_num [CAPITAL, RISK_PER_TRADE])]
        norm_num [CAPITAL, RISK_PER_TRADE]
      have hq333 : pyInt (CAPITAL * RISK_PER_TRADE / (2 * (3 / 2))) = 333 := by
        rw [pyInt_eq_floor_of_nonneg _ (by norm_num [CAPITAL, RISK_PER_TRADE])]
        norm_num [CAPITAL, RISK_PER_TRADE]
      rw [hq333, posRT]
      norm_num
    · simp only [poll_position, stRT, lookup?, if_pos rfl]
      rw [if_pos (by norm_num [posRT])]
      simp [exit_trade, lookup?, posRT, dictRemove, historyAppend]
      norm_num

/-- C3 witness: the general entry/stop law applied to the concrete round-trip
frame `dfRT`. -/
theorem c3_entry_stop_witness :
    posRT.entry_price = dfRT.lastClose ∧
    ∃ atr, calculate_atr dfRT = some atr ∧
      ((Sig.BUY = Sig.BUY → posRT.stop_loss = posRT.entry_price - atr * (3 / 2)) ∧
       (Sig.BUY = Sig.SELL → posRT.stop_loss = posRT.entry_price + atr * (3 / 2))) :=
  c3_entry_stop.1 Sig.BUY Sentiment.Neutral dfRT posRT c3_entry_stop.2.1

/-- C4: the Signal Evaluator of `daily_trading` produces a Long (`BUY`) signal
iff the expectancy estimate exists and is positive and the sentiment is
Bullish, a Short (`SELL`) signal iff it exists and is negative and the
sentiment is Bearish, and no signal in every other case (no estimate, zero
estimate, Neutral sentiment, or sign/sentiment mismatch). -/
theorem c4_signal_gate :
    (∀ pnl sent, daily_signal pnl sent = some Sig.BUY ↔
        (∃ v, pnl = some v ∧ 0 < v) ∧ sent = Sentiment.Bullish) ∧
    (∀ pnl sent, daily_signal pnl sent = some Sig.SELL ↔
        (∃ v, pnl = some v ∧ v < 0) ∧ sent = Sentiment.Bearish) ∧
    (∀ sent, daily_signal none sent = none) ∧
    (∀ (v : ℚ) sent, ¬(0 < v ∧ sent = Sentiment.Bullish) →
        ¬(v < 0 ∧ sent = Sentiment.Bearish) →
        daily_signal (some v) sent = none) := by
  refine ⟨?_, ?_, ?_, ?_⟩
  · intro pnl sent
    constructor
    · intro h
      cases pnl with
      | none => simp [daily_signal] at h
      | some v =>
          simp only [daily_signal] at h
          split_ifs at h with h1 h2
          · exact ⟨⟨v, rfl, h1.1⟩, h1.2⟩
          · simp at h
    · rintro ⟨⟨v, rfl, hv⟩, rfl⟩
      simp [daily_signal, hv]
  · intro pnl sent
    constructor
    · intro h
      cases pnl with
      | none => simp [daily_signal] at h
      | some v =>
          simp only [daily_signal] at h
          split_ifs at h with h1 h2
          · simp at h
          · exact ⟨⟨v, rfl, h2.1⟩, h2.2⟩
    · rintro ⟨⟨v, rfl, hv⟩, rfl⟩
      have h1 : ¬(v > 0 ∧ Sentiment.Bearish = Sentiment.Bullish) := by simp
      simp [daily_signal, h1, hv]
  · intro sent
    rfl
  · intro v sent h1 h2
    simp [daily_signal, h1, h2]

/-- C4 witness: a zero estimate yields no signal even under Bullish
sentiment. -/
theorem c4_signal_gate_witness : daily_signal (some 0) Sentiment.Bullish = none :=
  c4_signal_gate.2.2.2 0 Sentiment.Bullish (by simp) (by simp)

/-- C5: the sentiment label is the deterministic threshold function of the
averaged score: Bullish iff score > 0.2, Bearish iff score < −0.2, Neutral
otherwise (including exactly 0.2, −0.2, and 0); and the label returned by
`fetch_and_analyze_sentiment` is exactly this function of its average. -/
theorem c5_label_thresholds :
    (∀ score : ℚ, sentLabel score = Sentiment.Bullish ↔ 1 / 5 < score) ∧
    (∀ score : ℚ, sentLabel score = Sentiment.Bearish ↔ score < -(1 / 5)) ∧
    (∀ score : ℚ, sentLabel score = Sentiment.Neutral ↔
        -(1 / 5) ≤ score ∧ score ≤ 1 / 5) ∧
    (sentLabel (1 / 5) = Sentiment.Neutral ∧
      sentLabel (-(1 / 5)) = Sentiment.Neutral ∧
      sentLabel 0 = Sentiment.Neutral) ∧
    (∀ stocks draws, (fetch_and_analyze_sentiment stocks draws).1 =
        sentLabel (fetch_and_analyze_sentiment stocks draws).2.1) := by
  refine ⟨?_, ?_, ?_, ?_, ?_⟩
  · intro score
    rw [sentLabel]
    split_ifs with h1 h2
    · exact iff_of_true rfl h1
    · exact iff_of_false (by simp) h1
    · exact iff_of_false (by simp) h1
  · intro score
    rw [sentLabel]
    split_ifs with h1 h2
    · exact iff_of_false (by simp) (by linarith)
    · exact iff_of_true rfl h2
    · exact iff_of_false (by simp) h2
  · intro score
    rw [sentLabel]
    split_ifs with h1 h2
    · exact iff_of_false (by simp) (fun hc => not_le.mpr h1 hc.2)
    · exact iff_of_false (by simp) (fun hc => not_le.mpr h2 hc.1)
    · exact iff_of_true rfl ⟨not_lt.mp h2, not_lt.mp h1⟩
  · refine ⟨?_, ?_, ?_⟩ <;> norm_num [sentLabel]
  · intro stocks draws
    rfl

theorem analyze_none_bounds (text : String) :
    -1 < analyze_sentiment text none ∧ analyze_sentiment text none < 1 := by
  simp only [analyze_sentiment]
  split_ifs with hb
  · norm_num
  · exact fallback_ratio_bounds _ _

theorem analyze_some_bounds (text : String) (tb vd : ℚ) (h1 : -1 ≤ tb)
    (h2 : tb ≤ 1) (h3 : -1 ≤ vd) (h4 : vd ≤ 1) :
    -1 ≤ analyze_sentiment text (some (tb, vd)) ∧
      analyze_sentiment text (some (tb, vd)) ≤ 1 := by
  simp only [analyze_sentiment]
  split_ifs with hb
  · norm_num
  · constructor <;> linarith

/-- C6: per-sample sentiment scores are bounded — with both scorers available
and in [-1,1] the mean of the two is in [-1,1]; the keyword fallback is
strictly inside (-1,1); blank text scores exactly 0 — and the final score of
`fetch_and_analyze_sentiment` (the mean of its 3 per-sample scores) lies in
[-1,1] whenever each draw's scorers, when available, are in [-1,1]. -/
theorem c6_score_bounds :
    (∀ text tb vd, -1 ≤ tb → tb ≤ 1 → -1 ≤ vd → vd ≤ 1 →
        -1 ≤ analyze_sentiment text (some (tb, vd)) ∧
          analyze_sentiment text (some (tb, vd)) ≤ 1) ∧
    (∀ text, -1 < analyze_sentiment text none ∧ analyze_sentiment text none < 1) ∧
    (∀ text scorers, isBlank text = true → analyze_sentiment text scorers = 0) ∧
    (∀ (stocks : List (String × String))
        (draws : List (String × Option (ℚ × ℚ))), draws.length = 3 →
        (∀ d ∈ draws, ∀ tb vd, d.2 = some (tb, vd) →
            -1 ≤ tb ∧ tb ≤ 1 ∧ -1 ≤ vd ∧ vd ≤ 1) →
        -1 ≤ (fetch_and_analyze_sentiment stocks draws).2.1 ∧
          (fetch_and_analyze_sentiment stocks draws).2.1 ≤ 1) := by
  refine ⟨fun text tb vd h1 h2 h3 h4 => analyze_some_bounds text tb vd h1 h2 h3 h4,
    fun text => analyze_none_bounds text, ?_, ?_⟩
  · intro text scorers h
    simp [analyze_sentiment, h]
  · intro stocks draws hlen hbound
    have hsc : ∀ x ∈ draws.map (fun d => analyze_sentiment d.1 d.2),
        -1 ≤ x ∧ x ≤ 1 := by
      intro x hx
      rcases List.mem_map.mp hx with ⟨d, hd, rfl⟩
      cases hd2 : d.2 with
      | none =>
          have hb := analyze_none_bounds d.1
          exact ⟨le_of_lt hb.1, le_of_lt hb.2⟩
      | some p =>
          obtain ⟨tb, vd⟩ := p
          have h4 := hbound d hd tb vd hd2
          exact analyze_some_bounds d.1 tb vd h4.1 h4.2.1 h4.2.2.1 h4.2.2.2
    have hsum := sum_bounds _ hsc
    rw [List.length_map, hlen] at hsum
    simp only [fetch_and_analyze_sentiment]
    rw [List.length_map, hlen]
    push_cast at hsum ⊢
    constructor
    · rw [le_div_iff₀ (by norm_num : (0 : ℚ) < 3)]
      linarith [hsum.1]
    · rw [div_le_iff₀ (by norm_num : (0 : ℚ) < 3)]
      linarith [hsum.2]

/-- C6 witness: whitespace-only text scores 0 even with scorer values outside
[-1,1]; a concrete in-range scorer pair stays in [-1,1]. -/
theorem c6_score_bounds_witness :
    analyze_sentiment "   " (some (5, 7)) = 0 ∧
    (-1 ≤ analyze_sentiment "up day" (some (1 / 2, 0)) ∧
      analyze_sentiment "up day" (some (1 / 2, 0)) ≤ 1) :=
  ⟨c6_score_bounds.2.2.1 "   " (some (5, 7)) (by rfl),
   c6_score_bounds.1 "up day" (1 / 2) 0 (by norm_num) (by norm_num)
     (by norm_num) (by norm_num)⟩

theorem poll_noop (symbol : String) (pr : Option ℚ) (today now : Nat)
    (s : BotState) (h : lookup? symbol s.active_positions = none) :
    poll_position symbol pr today now s = s := by
  cases pr with
  | none => rfl
  | some p => simp [poll_position, h]

theorem poll_close_eq (symbol : String) (p : ℚ) (today now : Nat)
    (s : BotState) (pos : Position)
    (hl : lookup? symbol s.active_positions = some pos)
    (hbr : (pos.signal = Sig.BUY ∧ p ≤ pos.stop_loss) ∨
           (pos.signal = Sig.SELL ∧ pos.stop_loss ≤ p)) :
    poll_position symbol (some p) today now s = exit_trade symbol p today now s := by
  simp only [poll_position, hl]
  rcases hbr with ⟨hsig, hle⟩ | ⟨hsig, hle⟩
  · rw [if_pos ⟨hsig, hle⟩]
  · rw [if_neg (fun hc => by cases hsig.symm.trans hc.1), if_pos ⟨hsig, hle⟩]

/-- C7: `PollAndMaybeClose` on an instrument with no open position is a
no-op; on an open position it closes exactly on a stop-loss breach in the
position's direction — removing the position and appending exactly one
closed trade — and is a no-op otherwise; and after a breach-close every
further poll of that instrument leaves the state (ledger and history)
unchanged. -/
theorem c7_poll :
    (∀ symbol pr today now s, lookup? symbol s.active_positions = none →
        poll_position symbol pr today now s = s) ∧
    (∀ symbol (p : ℚ) today now (s : BotState) pos,
        lookup? symbol s.active_positions = some pos →
        (((pos.signal = Sig.BUY ∧ p ≤ pos.stop_loss) ∨
          (pos.signal = Sig.SELL ∧ pos.stop_loss ≤ p)) →
            (poll_position symbol (some p) today now s).active_positions =
              dictRemove symbol s.active_positions ∧
            rowCount (poll_position symbol (some p) today now s).trade_history =
              rowCount s.trade_history + 1) ∧
        (¬((pos.signal = Sig.BUY ∧ p ≤ pos.stop_loss) ∨
           (pos.signal = Sig.SELL ∧ pos.stop_loss ≤ p)) →
            poll_position symbol (some p) today now s = s)) ∧
    (∀ symbol (p : ℚ) today now (s : BotState) pos,
        lookup? symbol s.active_positions = some pos →
        ((pos.signal = Sig.BUY ∧ p ≤ pos.stop_loss) ∨
         (pos.signal = Sig.SELL ∧ pos.stop_loss ≤ p)) →
        ∀ pr2 today2 now2,
          poll_position symbol pr2 today2 now2
              (poll_position symbol (some p) today now s) =
            poll_position symbol (some p) today now s) := by
  refine ⟨poll_noop, ?_, ?_⟩
  · intro symbol p today now s pos hl
    constructor
    · intro hbr
      rw [poll_close_eq symbol p today now s pos hl hbr]
      constructor
      · simp only [exit_trade, hl]
      · simp only [exit_trade, hl]
        exact rowCount_historyAppend today _ s.trade_history
    · intro hnbr
      simp only [poll_position, hl]
      rw [if_neg (fun hc => hnbr (Or.inl hc)),
        if_neg (fun hc => hnbr (Or.inr hc))]
  · intro symbol p today now s pos hl hbr pr2 today2 now2
    rw [poll_close_eq symbol p today now s pos hl hbr]
    refine poll_noop symbol pr2 today2 now2 _ ?_
    simp only [exit_trade, hl]
    exact lookup_dictRemove_self symbol s.active_positions

/-- C7 witness: polling an instrument with no position is a no-op, and after
the `"PQR"` long is stopped out a second poll is a no-op. -/
theorem c7_poll_witness :
    poll_position "NON" (some 1) 0 0 stOld = stOld ∧
    poll_position "PQR" (some 5) 1 2 (poll_position "PQR" (some 180) 0 0 stP) =
      poll_position "PQR" (some 180) 0 0 stP :=
  ⟨c7_poll.1 "NON" (some 1) 0 0 stOld (by simp [stOld, lookup?]),
   c7_poll.2.2 "PQR" 180 0 0 stP ordNew (by simp [stP, lookup?])
     (Or.inl ⟨rfl, by norm_num [ordNew]⟩) (some 5) 1 2⟩

theorem sized_order_dfA : sized_order Sig.BUY Sentiment.Neutral dfA = some ordNew := by
  rw [dfA, sized_order_eq_ite]
  have hq : pyInt (CAPITAL * RISK_PER_TRADE / (4 * (3 / 2))) = 166 := by
    rw [pyInt_eq_floor_of_nonneg _ (by norm_num [CAPITAL, RISK_PER_TRADE])]
    norm_num [CAPITAL, RISK_PER_TRADE]
  rw [if_neg (by norm_num), hq, if_neg (by norm_num), if_neg (by simp)]
  rw [ordNew]
  norm_num

theorem nodupKeys_place_trade (symbol : String) (sig : Sig) (sent : Sentiment)
    (df : PriceFrame) (s : BotState) (h : NodupKeys s.active_positions) :
    NodupKeys ((place_trade symbol sig sent df s).active_positions) := by
  cases hso : sized_order sig sent df with
  | none => simpa [place_trade, hso] using h
  | some pos =>
      simp only [place_trade, hso]
      exact nodupKeys_dictInsert symbol pos _ h

/-- C1 counterexample: an `Open` for instrument `"ABC"`, which already holds
an open position, is not rejected as a no-op — `place_trade` overwrites the
stored position with the newly sized one. -/
theorem c1_counterexample :
    place_trade "ABC" Sig.BUY Sentiment.Neutral dfA stOld ≠ stOld ∧
    lookup? "ABC" (place_trade "ABC" Sig.BUY Sentiment.Neutral dfA
        stOld).active_positions = some ordNew ∧
    lookup? "ABC" stOld.active_positions = some posOld ∧
    ordNew ≠ posOld := by
  have hpt : place_trade "ABC" Sig.BUY Sentiment.Neutral dfA stOld =
      ⟨[("ABC", ordNew)], []⟩ := by
    simp [place_trade, sized_order_dfA, stOld, dictInsert]
  refine ⟨?_, ?_, ?_, ?_⟩
  · rw [hpt]
    intro hc
    norm_num [stOld, ordNew, posOld] at hc
  · rw [hpt]
    simp [lookup?]
  · simp [stOld, lookup?]
  · intro hc
    norm_num [ordNew, posOld] at hc

/-- C1 amended: an `Open` for an instrument that already has an open position
replaces that position in place — the key set is unchanged, so no second
position is inserted — and after any sequence of `Open` calls each instrument
still has at most one open position (the ledger's keys stay pairwise
distinct). -/
theorem c1_amended :
    (∀ calls (s : BotState), NodupKeys s.active_positions →
        NodupKeys ((applyOpens calls s).active_positions)) ∧
    (∀ symbol sig sent df (s : BotState) o, sized_order sig sent df = some o →
        symbol ∈ keys s.active_positions →
        keys ((place_trade symbol sig sent df s).active_positions) =
          keys s.active_positions ∧
        lookup? symbol ((place_trade symbol sig sent df s).active_positions) =
          some o) := by
  constructor
  · intro calls
    induction calls with
    | nil => exact fun s h => h
    | cons c rest ih =>
        intro s h
        exact ih _ (nodupKeys_place_trade c.symbol c.signal c.sentiment c.df s h)
  · intro symbol sig sent df s o hso hmem
    simp only [place_trade, hso]
    exact ⟨keys_dictInsert_of_mem symbol o s.active_positions hmem,
      lookup_dictInsert_self symbol o s.active_positions⟩

/-- C1 witness: the invariant and the replace-semantics applied to the
concrete overwriting `Open` on `"ABC"`. -/
theorem c1_amended_witness :
    NodupKeys ((applyOpens [⟨"ABC", Sig.BUY, Sentiment.Neutral, dfA⟩]
        stOld).active_positions) ∧
    (keys ((place_trade "ABC" Sig.BUY Sentiment.Neutral dfA
          stOld).active_positions) = keys stOld.active_positions ∧
      lookup? "ABC" ((place_trade "ABC" Sig.BUY Sentiment.Neutral dfA
          stOld).active_positions) = some ordNew) :=
  ⟨c1_amended.1 [⟨"ABC", Sig.BUY, Sentiment.Neutral, dfA⟩] stOld
      (by simp [stOld, NodupKeys, keys]),
   c1_amended.2 "ABC" Sig.BUY Sentiment.Neutral dfA stOld ordNew sized_order_dfA
      (by simp [stOld, keys])⟩

/-- C8: the daily report is a pure overwrite of the day's file from the
accumulated history — running it a second time with the same history leaves
the filesystem exactly as after the first run (same bytes, no duplicated
rows), and files of other days are untouched. -/
theorem c8_report_idempotent :
    ∀ (s : BotState) (today : Nat) (fs : Nat → Option (List ClosedTrade)),
      (save_daily_report s today ((save_daily_report s today fs).2)).2 =
        (save_daily_report s today fs).2 ∧
      (∀ d, d ≠ today → (save_daily_report s today fs).2 d = fs d) := by
  intro s today fs
  by_cases h1 : s.trade_history = []
  · exact ⟨by simp [save_daily_report, h1], fun d hd => by simp [save_daily_report, h1]⟩
  · by_cases h2 : report_rows s.trade_history = []
    · exact ⟨by simp [save_daily_report, h1, h2],
        fun d hd => by simp [save_daily_report, h1, h2]⟩
    · have e1 : (save_daily_report s today fs).2 =
          fun d => if d = today then some (report_rows s.trade_history)
                   else fs d := by
        simp [save_daily_report, h1, h2]
      have e2 : (save_daily_report s today ((save_daily_report s today fs).2)).2 =
          fun d => if d = today then some (report_rows s.trade_history)
                   else (save_daily_report s today fs).2 d := by
        simp [save_daily_report, h1, h2]
      constructor
      · rw [e2, e1]
        funext d
        by_cases hd : d = today
        · simp [hd]
        · simp [hd]
      · intro d hd
        rw [e1]
        exact if_neg hd

/-- C8 witness: with the one-day history, day 1's file is untouched by a
day-0 report run. -/
theorem c8_report_idempotent_witness :
    (save_daily_report stHist 0 fsN).2 1 = fsN 1 :=
  (c8_report_idempotent stHist 0 fsN).2 1 (by decide)

/-- C9: generating the daily report leaves the ledger state (open positions
and the whole day-keyed history) exactly as it was, and the emitted rows are
exactly the concatenation of every day's bucket in insertion order. -/
theorem c9_report_frame :
    ∀ (s : BotState) (today : Nat) (fs : Nat → Option (List ClosedTrade)),
      (save_daily_report s today fs).1 = s ∧
      report_rows s.trade_history = (s.trade_history.map Prod.snd).flatten ∧
      (s.trade_history ≠ [] → report_rows s.trade_history ≠ [] →
          (save_daily_report s today fs).2 today =
            some (report_rows s.trade_history)) := by
  intro s today fs
  refine ⟨?_, report_rows_eq_flatten s.trade_history, ?_⟩
  · by_cases h1 : s.trade_history = []
    · simp [save_daily_report, h1]
    · by_cases h2 : report_rows s.trade_history = []
      · simp [save_daily_report, h1, h2]
      · simp [save_daily_report, h1, h2]
  · intro h1 h2
    simp [save_daily_report, h1, h2]

/-- C9 witness: the frame and emitted-rows law at the concrete one-day
history. -/
theorem c9_report_frame_witness :
    (save_daily_report stHist 0 fsN).1 = stHist ∧
    (save_daily_report stHist 0 fsN).2 0 = some (report_rows stHist.trade_history) :=
  ⟨(c9_report_frame stHist 0 fsN).1,
   (c9_report_frame stHist 0 fsN).2.2 (by simp [stHist])
      (by simp [report_rows, stHist])⟩

/-- C10: on a stop-loss breach the recorded exit price is the polled price
itself (not the stop level) and `realizedPnl = qty × (p − entry)` for a long,
`qty × (entry − p)` for a short; concretely, the 166-share long from ATR 4
polled at 180 (14 under its 194 stop) books a 3320 loss, which exceeds both
the intended stop distance `qty × 1.5 × atr = 996` and the risk budget
`CAPITAL × RISK_PER_TRADE = 1000`. -/
theorem c10_exit_at_market :
    (∀ (s : BotState) symbol pos (p : ℚ) today now,
        lookup? symbol s.active_positions = some pos →
        pos.signal = Sig.BUY → p ≤ pos.stop_loss →
        (poll_position symbol (some p) today now s).trade_history =
          historyAppend today
            ⟨symbol, pos.signal, pos.qty, pos.entry_price, p,
             (pos.qty : ℚ) * (p - pos.entry_price), now⟩ s.trade_history) ∧
    (∀ (s : BotState) symbol pos (p : ℚ) today now,
        lookup? symbol s.active_positions = some pos →
        pos.signal = Sig.SELL → pos.stop_loss ≤ p →
        (poll_position symbol (some p) today now s).trade_history =
          historyAppend today
            ⟨symbol, pos.signal, pos.qty, pos.entry_price, p,
             (pos.qty : ℚ) * (pos.entry_price - p), now⟩ s.trade_history) ∧
    ((poll_position "PQR" (some 180) 0 0 stP).trade_history =
        [(0, [⟨"PQR", Sig.BUY, 166, 200, 180, -3320, 0⟩])] ∧
      (3320 : ℚ) = 166 * (200 - 180) ∧
      166 * ((3 / 2) * 4) < (3320 : ℚ) ∧
      CAPITAL * RISK_PER_TRADE < (3320 : ℚ)) := by
  refine ⟨?_, ?_, ?_, by norm_num, by norm_num, by norm_num [CAPITAL, RISK_PER_TRADE]⟩
  · intro s symbol pos p today now hl hsig hle
    rw [poll_close_eq symbol p today now s pos hl (Or.inl ⟨hsig, hle⟩)]
    simp [exit_trade, hl, hsig]
  · intro s symbol pos p today now hl hsig hle
    rw [poll_close_eq symbol p today now s pos hl (Or.inr ⟨hsig, hle⟩)]
    simp [exit_trade, hl, hsig]
  · simp only [poll_position, stP, lookup?, if_pos rfl]
    rw [if_pos (by norm_num [ordNew])]
    simp [exit_trade, lookup?, ordNew, dictRemove, historyAppend]
    norm_num

/-- C10 witness: the long-side exit-at-market law applied to the concrete
`"PQR"` position polled far below its stop. -/
theorem c10_exit_at_market_witness :
    (poll_position "PQR" (some 180) 0 0 stP).trade_history =
      historyAppend 0
        ⟨"PQR", ordNew.signal, ordNew.qty, ordNew.entry_price, 180,
         (ordNew.qty : ℚ) * (180 - ordNew.entry_price), 0⟩ stP.trade_history :=
  c10_exit_at_market.1 stP "PQR" ordNew 180 0 0 (by simp [stP, lookup?]) rfl
    (by norm_num [ordNew])

end IntradayBot
